import Mathlib

/-!
Shallow embedding of the node-subler command builder (src/subler.ts) and
proofs about its specification.

The embedding models:
  * the metadata atom type and its rendering (`Atom`, `Atom.arg`),
  * the metadata collection rendering (`atomsArgs`, `metadataTags`),
  * the builder state (`SublerStruct`) with its defaults,
  * destination resolution (`nextAvailablePath`, `determineDest`) over an
    explicit finite filesystem model (`FS`),
  * command assembly (`buildTagCommand`) including shell escaping of paths
    and the executable lookup (`sublerExecutable`).

The filesystem is a finite list of existing paths; the process environment
variable SUBLER_PATH is an `Option String` parameter (`none` models an
unset variable). JavaScript exceptions are modelled with `Except`, and the
in-place mutation of the atoms collection performed by `buildTagCommand`
is modelled by returning the post-call collection alongside the result.
-/

namespace NodeSubler

/-- Embedding of the `MediaKind` enum (src/subler.ts lines 9-31). -/
inductive MediaKind where
  | movie
  | music
  | audiobook
  | musicVideo
  | tvShow
  | booklet
  | ringtone
deriving DecidableEq

/-- The string value of each `MediaKind` member. The source spells the
RINGTONE member value as "Rightone"; the embedding keeps that spelling. -/
def MediaKind.value : MediaKind → String
  | .movie => "Movie"
  | .music => "Music"
  | .audiobook => "Audiobook"
  | .musicVideo => "Music Video"
  | .tvShow => "TV Show"
  | .booklet => "Booklet"
  | .ringtone => "Rightone"

/-- Embedding of `AtomStruct` / the `Atom` class state (src/subler.ts
lines 271-299): a tag paired with a value. -/
structure Atom where
  tag : String
  value : String
deriving DecidableEq

/-- A character matched by the character class of the regex
`/[\n|\r]+/g` used in `Atom.arg` (src/subler.ts line 304). Note that the
class contains the literal pipe character, so `|` is matched as well as
newline and carriage return. -/
def isRunChar (c : Char) : Bool :=
  c = '\n' || c = '|' || c = '\r'

/-- State-machine form of the global replacement of `/[\n|\r]+/g` by a
single space: `inRun` records whether the previous character was part of
a match already replaced. -/
def collapseAux (inRun : Bool) : List Char → List Char
  | [] => []
  | c :: cs =>
    if isRunChar c then
      if inRun then collapseAux true cs
      else ' ' :: collapseAux true cs
    else c :: collapseAux false cs

/-- Embedding of `value.replace(/[\n|\r]+/g, ' ')` (src/subler.ts line
304): every maximal run of characters in the class is replaced by one
space. -/
def collapseRuns (s : String) : String :=
  String.mk (collapseAux false s.data)

/-- Embedding of the second replace call at src/subler.ts line 304: each
single-quote character is replaced by a backslash followed by itself. -/
def escapeQuotes (s : String) : String :=
  String.mk (s.data.flatMap fun c => if c = '\x27' then ['\\', c] else [c])

/-- Embedding of `Atom.arg` (src/subler.ts lines 302-309). -/
def Atom.arg (a : Atom) : String :=
  let escapedValue := escapeQuotes (collapseRuns a.value)
  let wrapped := if a.tag ≠ "Artwork" then "\x27" ++ escapedValue ++ "\x27" else escapedValue
  "\x7b\x27" ++ a.tag ++ "\x27:" ++ wrapped ++ "\x7d"

/-- Embedding of `Atoms.args` (src/subler.ts lines 397-407): an empty
collection contributes nothing; otherwise the `-metadata` flag followed by
the concatenation (separator-free join) of each rendered atom. -/
def atomsArgs (inner : List Atom) : List String :=
  if inner.length > 0 then
    ["-metadata", String.join (inner.map Atom.arg)]
  else
    []

/-- The `AtomTag` table (src/subler.ts lines 453-676) as the ordered list
of its (key, label) pairs; `Object.values` enumerates the labels in this
insertion order. -/
def atomTagList : List (String × String) :=
  [ ("artist", "Artist")
  , ("albumArtist", "Album Artist")
  , ("album", "Album")
  , ("grouping", "Grouping")
  , ("composer", "Composer")
  , ("comments", "Comments")
  , ("genre", "Genre")
  , ("releaseDate", "Release Date")
  , ("trackNumber", "Track #")
  , ("diskNumber", "Disk #")
  , ("tempo", "Tempo")
  , ("tvShow", "TV Show")
  , ("tvEpisodeNumber", "TV Episode #")
  , ("tvNetwork", "TV Network")
  , ("tvEpisodeId", "TV Episode ID")
  , ("tvSeason", "TV Season")
  , ("description", "Description")
  , ("longDescription", "Long Description")
  , ("seriesDescription", "Series Description")
  , ("hdVideo", "HD Video")
  , ("ratingAnnotation", "Rating Annotation")
  , ("studio", "Studio")
  , ("cast", "Cast")
  , ("director", "Director")
  , ("gapless", "Gapless")
  , ("codirector", "Codirector")
  , ("producers", "Producers")
  , ("screenwriters", "Screenwriters")
  , ("lyrics", "Lyrics")
  , ("copyright", "Copyright")
  , ("encodingTool", "Encoding Tool")
  , ("encoded_by", "Encoded By")
  , ("keywords", "Keywords")
  , ("category", "Category")
  , ("contentId", "contentID")
  , ("artistId", "artistID")
  , ("playlistId", "playlistID")
  , ("genreId", "genreID")
  , ("composerId", "composerID")
  , ("xid", "XID")
  , ("itunesCccount", "iTunes Account")
  , ("itunesAccountType", "iTunes Account Type")
  , ("itunesCountry", "iTunes Country")
  , ("trackSubTitle", "Track Sub-Title")
  , ("songDescription", "Song Description")
  , ("artDirector", "Art Director")
  , ("arranger", "Arranger")
  , ("lyricist", "Lyricist")
  , ("acknowledgement", "Acknowledgement")
  , ("conductor", "Conductor")
  , ("linearNotes", "Linear Notes")
  , ("recordCompany", "Record Company")
  , ("originalArtist", "Original Artist")
  , ("phonogramRights", "Phonogram Rights")
  , ("producer", "Producer")
  , ("performer", "Performer")
  , ("publisher", "Publisher")
  , ("soundEngineer", "Sound Engineer")
  , ("soloist", "Soloist")
  , ("credits", "Credits")
  , ("thanks", "Thanks")
  , ("onlineExtras", "Online Extras")
  , ("executiveproducer", "Executive Producer")
  , ("sortName", "Sort Name")
  , ("sortArtist", "Sort Artist")
  , ("sortAlbumArtist", "Sort Album Artist")
  , ("sortAlbum", "Sort Album")
  , ("sortComposer", "Sort Composer")
  , ("sortTvShow", "Sort TV Show")
  , ("artwork", "Artwork")
  , ("name", "Name")
  , ("title", "Name")
  , ("rating", "Rating")
  , ("mediaKind", "Media Kind")
  ]

/-- Embedding of `Atoms.metadataTags` (src/subler.ts lines 382-391): the
labels of the `AtomTag` table, one per key, in insertion order. -/
def metadataTags : List String :=
  atomTagList.map Prod.snd

/-- Filesystem model: the finite list of paths at which a file exists. -/
def FS := List String

/-- Embedding of `existsSync` from the fs module, over the finite
filesystem model. -/
def existsSync (fs : FS) (p : String) : Bool :=
  List.contains fs p

/-- The pieces of a parsed path, as returned by the node `path.parse`
function: the directory part, the base name without extension, and the
extension including its leading dot. -/
structure PathParts where
  dir : String
  name : String
  ext : String

/-- Split a character list at the last occurrence of `sep`: returns the
characters before that occurrence and the characters after it, or `none`
when `sep` does not occur. -/
def lastSplit (sep : Char) (l : List Char) : Option (List Char × List Char) :=
  match l.reverse.span (fun c => c ≠ sep) with
  | (_, []) => none
  | (afterRev, _ :: beforeRev) => some (beforeRev.reverse, afterRev.reverse)

/-- Model of the posix `path.parse` for ordinary file paths: `dir` is
everything before the last slash (the root slash for paths such as
"/a.mp4"), and the extension starts at the last dot of the base name
provided that dot is not its first character. The special node handling
of the base name ".." is not modelled; no path used here has it. -/
def parsePath (p : String) : PathParts :=
  let (dirStr, base) :=
    match lastSplit '/' p.data with
    | none => ("", p.data)
    | some ([], after) => ("/", after)
    | some (before, after) => (String.mk before, after)
  match lastSplit '.' base with
  | none => { dir := dirStr, name := String.mk base, ext := "" }
  | some ([], _) => { dir := dirStr, name := String.mk base, ext := "" }
  | some (before, after) =>
    { dir := dirStr, name := String.mk before, ext := String.mk ('.' :: after) }

/-- Model of the posix `path.join` as used on a `dir` produced by
`parsePath` and a plain file name. -/
def joinPath (dir s : String) : String :=
  if dir.isEmpty then s
  else if dir = "/" then "/" ++ s
  else dir ++ "/" ++ s

/-- The candidate destination built at src/subler.ts lines 238-241:
`join(path.dir, name + "." + i + ext)`. -/
def candidatePath (p : String) (i : Nat) : String :=
  let parts := parsePath p
  joinPath parts.dir (parts.name ++ "." ++ toString i ++ parts.ext)

/-- Embedding of `Subler.nextAvailablePath` (src/subler.ts lines 236-248).
In the source, when the candidate exists the recursive call
`this.nextAvailablePath(p, i + 1);` is made WITHOUT `return`, its result
is discarded, and control falls off the end of the function, returning
undefined. The observable behaviour is therefore: return the candidate
for the given index when no file exists there, and undefined otherwise. -/
def nextAvailablePath (fs : FS) (p : String) (i : Nat) : Option String :=
  let dest := candidatePath p i
  if existsSync fs dest then
    none
  else
    some dest

/-- The suffix search as the specification describes it (spec section
4.3): try `candidatePath p i` for i, i+1, i+2, ... and return the first
candidate at which no file exists. Fuel bounds the search so that the
definition is total; with fuel larger than the number of existing files
the search cannot be cut short. This definition follows the words of the
specification, for comparison with `nextAvailablePath` above. -/
def suffixSearchSpec (fs : FS) (p : String) : Nat → Nat → Option String
  | 0, _ => none
  | fuel + 1, i =>
    let dest := candidatePath p i
    if existsSync fs dest then suffixSearchSpec fs p fuel (i + 1) else some dest

/-- Embedding of `SublerStruct` (src/subler.ts lines 44-85). -/
structure SublerStruct where
  source : String
  dest : Option String
  chaptersPreview : Bool
  optimize : Bool
  organizeGroups : Bool
  bitChunk64 : Bool
  atoms : List Atom
  mediaKind : Option MediaKind
deriving DecidableEq

/-- The state built by the `Subler` constructor (src/subler.ts lines
100-110): all four boolean flags default to true and the media kind
defaults to Movie. -/
def mkSubler (source : String) (atoms : List Atom) : SublerStruct :=
  { source := source
  , dest := none
  , chaptersPreview := true
  , optimize := true
  , organizeGroups := true
  , bitChunk64 := true
  , atoms := atoms
  , mediaKind := some MediaKind.movie }

/-- Embedding of `Subler.determineDest` (src/subler.ts lines 255-265).
The source guards with the truthiness test `if (this.subler.dest)`, so an
empty-string destination behaves like an absent one. -/
def determineDest (fs : FS) (st : SublerStruct) : Option String :=
  match st.dest with
  | some d =>
    if d.isEmpty then nextAvailablePath fs st.source 0
    else if existsSync fs d then nextAvailablePath fs d 0
    else some d
  | none => nextAvailablePath fs st.source 0

/-- Embedding of `Subler.executable` (src/subler.ts lines 117-119):
`env.SUBLER_PATH || defaultPath`. The JavaScript or-operator returns its
right operand when the left is falsy, and both an absent variable and an
empty string are falsy. -/
def sublerExecutable (envPath : Option String) : String :=
  match envPath with
  | some s => if s.isEmpty then "/usr/local/bin/SublerCli" else s
  | none => "/usr/local/bin/SublerCli"

/-- A character matched by the path-escaping regex at src/subler.ts
lines 158 and 164: a JavaScript whitespace character, an ampersand, or a
single quote. The whitespace alternatives are those of the JavaScript
backslash-s class. -/
def isEscChar (c : Char) : Bool :=
  c = ' ' || c = '\t' || c = '\n' || c.val = 0x0B || c.val = 0x0C || c = '\r' ||
  c.val = 0xA0 || c.val = 0x1680 || (0x2000 ≤ c.val && c.val ≤ 0x200A) ||
  c.val = 0x2028 || c.val = 0x2029 || c.val = 0x202F || c.val = 0x205F ||
  c.val = 0x3000 || c.val = 0xFEFF || c = '&' || c = '\x27'

/-- Embedding of the path-escaping replace call (src/subler.ts lines 158
and 164): each matched character is replaced, in place, by a backslash
followed by that character. -/
def escapeShell (s : String) : String :=
  String.mk (s.data.flatMap fun c => if isEscChar c then ['\\', c] else [c])

/-- The errors thrown by `buildTagCommand`. -/
inductive SublerError where
  | sourceNotFound
  | destinationNotFound
deriving DecidableEq

/-- Embedding of `SublerCommand` (src/subler.ts lines 34-41). -/
structure SublerCommand where
  command : String
  args : List String
deriving DecidableEq

/-- Embedding of `Subler.buildTagCommand` (src/subler.ts lines 138-182).
The first component is the thrown error or the returned command; the
second component is the atoms collection after the call, modelling the
in-place mutation the source performs on `this.subler.atoms` at lines
143-145 (the media-kind atom is appended before any further check, so it
stays appended even when the destination error is thrown). -/
def buildTagCommand (envPath : Option String) (fs : FS) (st : SublerStruct) :
    Except SublerError SublerCommand × List Atom :=
  if existsSync fs st.source = false then
    (Except.error SublerError.sourceNotFound, st.atoms)
  else
    let atoms1 :=
      match st.mediaKind with
      | some mk => st.atoms ++ [{ tag := "Media Kind", value := mk.value }]
      | none => st.atoms
    match determineDest fs st with
    | none => (Except.error SublerError.destinationNotFound, atoms1)
    | some dest =>
      let metaTags := atomsArgs atoms1
      let escapedSource := escapeShell st.source
      let escapedDest := escapeShell dest
      let args :=
        ["-source", escapedSource] ++ ["-dest", escapedDest] ++ metaTags
        ++ (if st.chaptersPreview then ["-chapterspreview"] else [])
        ++ (if st.optimize then ["-optimize"] else [])
        ++ (if st.organizeGroups then ["-organizegroups"] else [])
        ++ (if st.bitChunk64 then ["-64bitchunk"] else [])
      (Except.ok { command := sublerExecutable envPath, args := args }, atoms1)

/-- One call of `buildTagCommand` seen as a state transformer on the
builder: the atoms collection is updated to the post-call collection
(the in-place mutation), everything else is untouched. -/
def buildStep (envPath : Option String) (fs : FS) (st : SublerStruct) : SublerStruct :=
  { st with atoms := (buildTagCommand envPath fs st).2 }

/-- Dropping a prefix never lengthens a list; used for the termination of
`specCollapse`. -/
def dropWhileLengthLe (p : Char → Bool) : ∀ l : List Char, (l.dropWhile p).length ≤ l.length
  | [] => by simp [List.dropWhile]
  | c :: cs => by
    rw [List.dropWhile_cons]
    by_cases h : p c
    · simp only [h, if_true, List.length_cons]
      exact Nat.le_succ_of_le (dropWhileLengthLe p cs)
    · simp [h]

/-- The value transformation as the specification words it: each maximal
run of matched characters (consumed here in one step with `dropWhile`) is
replaced by a single space, and every character outside a run is kept
unchanged. Stated over the character class the code actually matches. -/
def specCollapse : List Char → List Char
  | [] => []
  | c :: cs =>
    if isRunChar c then ' ' :: specCollapse (cs.dropWhile isRunChar)
    else c :: specCollapse cs
termination_by l => l.length
decreasing_by
  · simp only [List.length_cons]
    exact Nat.lt_succ_of_le (dropWhileLengthLe isRunChar cs)
  · simp

/-- The escaped value of the specification: maximal runs collapsed to one
space, then every single quote prefixed with a backslash, all other
characters kept. -/
def specEscapedValue (v : String) : String :=
  String.mk ((specCollapse v.data).flatMap fun c => if c = '\x27' then ['\\', c] else [c])

/-- A filesystem on which the source and its first suffixed candidate
both exist. -/
def fsTwoFiles : FS := ["a.mp4", "a.0.mp4"]

/-- A filesystem on which only the source exists. -/
def fsOneFile : FS := ["a.mp4"]

/-- A builder for the source `a.mp4` with no explicit destination and the
constructor defaults. -/
def stDefault : SublerStruct := mkSubler "a.mp4" []

/-- A builder whose explicit destination contains a space and an
ampersand and does not exist on `fsInOnly`. -/
def stAmpersand : SublerStruct := { mkSubler "in.mp4" [] with dest := some "dest & path" }

/-- A filesystem on which only `in.mp4` exists. -/
def fsInOnly : FS := ["in.mp4"]

/-- The command `buildTagCommand` produces for `stAmpersand` on
`fsInOnly` with no environment override. -/
def cmdAmpersand : SublerCommand :=
  { command := "/usr/local/bin/SublerCli"
  , args := [ "-source", "in.mp4", "-dest", "dest\\ \\&\\ path"
            , "-metadata", "\x7b\x27Media Kind\x27:\x27Movie\x27\x7d"
            , "-chapterspreview", "-optimize", "-organizegroups", "-64bitchunk" ] }

/-- A builder whose explicit destination `out.mp4` does not exist on
`fsOneFile`. -/
def stExplicitDest : SublerStruct := { mkSubler "a.mp4" [] with dest := some "out.mp4" }

/-- The command `buildTagCommand` produces for `stExplicitDest` on
`fsOneFile` with the environment override `/opt/subler`. -/
def cmdExplicitDest : SublerCommand :=
  { command := "/opt/subler"
  , args := [ "-source", "a.mp4", "-dest", "out.mp4"
            , "-metadata", "\x7b\x27Media Kind\x27:\x27Movie\x27\x7d"
            , "-chapterspreview", "-optimize", "-organizegroups", "-64bitchunk" ] }

/-- The atoms collection after one build of a collection that started
empty: just the synthetic media-kind atom. -/
def postMovieAtoms : List Atom := [{ tag := "Media Kind", value := "Movie" }]

end NodeSubler

namespace NodeSubler

theorem collapseAux_eq_specCollapse (l : List Char) :
    collapseAux false l = specCollapse l ∧
    collapseAux true l = specCollapse (l.dropWhile isRunChar) := by
  induction l with
  | nil =>
    refine ⟨?_, ?_⟩
    · rw [specCollapse]
      rfl
    · simp only [List.dropWhile_nil]
      rw [specCollapse]
      rfl
  | cons c cs ih =>
    by_cases h : isRunChar c
    · refine ⟨?_, ?_⟩
      · rw [specCollapse.eq_def]
        simp [h, collapseAux, ih.2]
      · rw [List.dropWhile_cons]
        simp [h, collapseAux, ih.2]
    · refine ⟨?_, ?_⟩
      · rw [specCollapse.eq_def]
        simp [h, collapseAux, ih.1]
      · rw [List.dropWhile_cons]
        simp only [h, if_false]
        rw [specCollapse.eq_def]
        simp [h, collapseAux, ih.1]

/-- C1: the suffix search of `nextAvailablePath` starting at index 0 is
claimed to return the first path of the form dir/name.i.ext at which no
file exists, making `determineDest` defined whenever some candidate is
free. On the filesystem where both a.mp4 and a.0.mp4 exist, the free
candidate a.1.mp4 exists (the spec-side search finds it), yet the code
returns none — the recursive call in the source discards its result — and
`determineDest` is undefined. -/
theorem c1_nextAvailablePath_bug :
    nextAvailablePath fsTwoFiles "a.mp4" 0 = none ∧
    suffixSearchSpec fsTwoFiles "a.mp4" 3 0 = some "a.1.mp4" ∧
    existsSync fsTwoFiles (candidatePath "a.mp4" 1) = false ∧
    determineDest fsTwoFiles stDefault = none :=
  ⟨rfl, rfl, rfl, rfl⟩

/-- C2: the claim states the DestinationNotFound branch of
`buildTagCommand` is unreachable whenever the source file exists. On the
filesystem where a.mp4 and a.0.mp4 both exist the source exists, yet the
build returns the DestinationNotFound error. -/
theorem c2_destinationNotFound_reachable :
    existsSync fsTwoFiles stDefault.source = true ∧
    (buildTagCommand none fsTwoFiles stDefault).1
      = Except.error SublerError.destinationNotFound :=
  ⟨rfl, rfl⟩

/-- C5: with only a.mp4 on disk the first build resolves the destination
a.0.mp4; the claim states that after that file is created the second
build must resolve a.1.mp4. Instead the second build returns the
DestinationNotFound error, even though a.1.mp4 is free. -/
theorem c5_second_call_not_incremented :
    ((buildTagCommand none fsOneFile stDefault).1.map fun c => c.args.take 4)
      = Except.ok ["-source", "a.mp4", "-dest", "a.0.mp4"] ∧
    (buildTagCommand none fsTwoFiles stDefault).1
      = Except.error SublerError.destinationNotFound ∧
    existsSync fsTwoFiles (candidatePath "a.mp4" 1) = false :=
  ⟨rfl, rfl, rfl⟩

/-- C6: when the source path does not reference an existing file,
`buildTagCommand` fails with the SourceNotFound error and the atoms
collection is returned unchanged, independent of the destination, the
flags, and the rest of the filesystem. -/
theorem c6_sourceNotFound_first (envPath : Option String) (fs : FS) (st : SublerStruct)
    (h : existsSync fs st.source = false) :
    buildTagCommand envPath fs st = (Except.error SublerError.sourceNotFound, st.atoms) := by
  unfold buildTagCommand
  rw [h]
  simp

/-- Witness for C6 at a concrete input: an empty filesystem and a builder
holding one atom. -/
theorem c6_sourceNotFound_first_witness :
    buildTagCommand none [] (mkSubler "missing.mp4" [{ tag := "Cast", value := "John Doe" }])
      = (Except.error SublerError.sourceNotFound, [{ tag := "Cast", value := "John Doe" }]) :=
  c6_sourceNotFound_first none [] (mkSubler "missing.mp4" [{ tag := "Cast", value := "John Doe" }]) rfl

/-- C3 counterexample: the claim says every character of the value other
than newline, carriage return and single quote is preserved unchanged,
but the regex character class `[\n|\r]` also matches the pipe character,
so the value a|b is rendered with the pipe collapsed to a space. -/
theorem c3_pipe_collapsed_counterexample :
    Atom.arg { tag := "Cast", value := "a|b" } = "\x7b\x27Cast\x27:\x27a b\x27\x7d" ∧
    Atom.arg { tag := "Cast", value := "a|b" } ≠ "\x7b\x27Cast\x27:\x27a|b\x27\x7d" :=
  ⟨rfl, by decide⟩

/-- C10: `metadataTags` is the label column of the `AtomTag` table, one
entry per key (the keys are pairwise distinct); the label Name occurs
exactly twice (the keys name and title both carry it), every other label
occurs exactly once (in particular Artist and Media Kind), and hence the
list is not duplicate-free. -/
theorem c10_metadataTags_name_twice :
    metadataTags = atomTagList.map Prod.snd ∧
    (atomTagList.map Prod.fst).Nodup ∧
    metadataTags.count "Name" = 2 ∧
    metadataTags.count "Artist" = 1 ∧
    metadataTags.count "Media Kind" = 1 ∧
    (metadataTags.filter fun l => l != "Name").Nodup ∧
    ¬ metadataTags.Nodup :=
  ⟨rfl, by decide, by decide, by decide, by decide, by decide, by decide⟩


/-- C3 (amended): for every atom, `arg` renders the braced form with the
tag single-quoted, where the value has each maximal run of newline,
carriage-return, or pipe characters replaced by a single space (the regex
character class `[\n|\r]` also matches the pipe) and each single quote
prefixed by a backslash, and the escaped value is wrapped in single
quotes exactly when the tag is not Artwork; all other characters of the
value are preserved unchanged. -/
theorem c3_arg_rendering (a : Atom) :
    a.arg = "\x7b\x27" ++ a.tag ++ "\x27:"
        ++ (if a.tag = "Artwork" then specEscapedValue a.value
            else "\x27" ++ specEscapedValue a.value ++ "\x27")
        ++ "\x7d" := by
  unfold Atom.arg collapseRuns escapeQuotes specEscapedValue
  rw [show (String.mk (collapseAux false a.value.data)).data
        = collapseAux false a.value.data from rfl]
  rw [(collapseAux_eq_specCollapse a.value.data).1]
  by_cases h : a.tag = "Artwork"
  · simp [h]
  · simp [h]

theorem buildTagCommand_atoms_of_mediaKind (envPath : Option String) (fs : FS)
    (st : SublerStruct) (mk : MediaKind) (hs : existsSync fs st.source = true)
    (hm : st.mediaKind = some mk) :
    (buildTagCommand envPath fs st).2
      = st.atoms ++ [{ tag := "Media Kind", value := mk.value }] := by
  unfold buildTagCommand
  rw [hs, hm]
  cases hdd : determineDest fs st <;> simp [hdd]

theorem buildStep_atoms (envPath : Option String) (fs : FS) (st : SublerStruct)
    (mk : MediaKind) (hs : existsSync fs st.source = true)
    (hm : st.mediaKind = some mk) :
    (buildStep envPath fs st).atoms
      = st.atoms ++ [{ tag := "Media Kind", value := mk.value }] :=
  buildTagCommand_atoms_of_mediaKind envPath fs st mk hs hm

theorem buildStep_iterate_atoms (envPath : Option String) (fs : FS) (st : SublerStruct)
    (mk : MediaKind) (n : Nat) (hs : existsSync fs st.source = true)
    (hm : st.mediaKind = some mk) :
    ((buildStep envPath fs)^[n] st).atoms
      = st.atoms ++ List.replicate n { tag := "Media Kind", value := mk.value } := by
  induction n generalizing st with
  | zero => simp
  | succ n ih =>
    rw [Function.iterate_succ_apply]
    rw [ih (buildStep envPath fs st) hs hm]
    rw [buildStep_atoms envPath fs st mk hs hm]
    simp [List.replicate_succ]

/-- C4: whenever the source exists and a media-kind classification is set
(the constructor default sets Movie), `buildTagCommand` appends exactly
one synthetic Media Kind atom with the classification value to the
caller-supplied collection; hence n successive calls grow the collection
by n atoms and two repeated calls append the media-kind atom twice. -/
theorem c4_mediaKind_appended (envPath : Option String) (fs : FS) (st : SublerStruct)
    (mk : MediaKind) (n : Nat) (hs : existsSync fs st.source = true)
    (hm : st.mediaKind = some mk) :
    (buildTagCommand envPath fs st).2
        = st.atoms ++ [{ tag := "Media Kind", value := mk.value }] ∧
    ((buildStep envPath fs)^[n] st).atoms.length = st.atoms.length + n ∧
    ((buildStep envPath fs)^[2] st).atoms
        = st.atoms ++ [{ tag := "Media Kind", value := mk.value },
                       { tag := "Media Kind", value := mk.value }] := by
  refine ⟨buildTagCommand_atoms_of_mediaKind envPath fs st mk hs hm, ?_, ?_⟩
  · rw [buildStep_iterate_atoms envPath fs st mk n hs hm]
    simp
  · rw [buildStep_iterate_atoms envPath fs st mk 2 hs hm]
    simp [List.replicate_succ]

/-- Witness for C4 at a concrete input: the default builder for a.mp4 on
a filesystem holding only a.mp4, iterated twice. -/
theorem c4_mediaKind_appended_witness :
    (buildTagCommand none fsOneFile stDefault).2
        = stDefault.atoms ++ [{ tag := "Media Kind", value := MediaKind.movie.value }] ∧
    ((buildStep none fsOneFile)^[2] stDefault).atoms.length = stDefault.atoms.length + 2 ∧
    ((buildStep none fsOneFile)^[2] stDefault).atoms
        = stDefault.atoms ++ [{ tag := "Media Kind", value := MediaKind.movie.value },
                              { tag := "Media Kind", value := MediaKind.movie.value }] :=
  c4_mediaKind_appended none fsOneFile stDefault MediaKind.movie 2 rfl rfl

/-- C7: an empty collection renders to the empty argument list (no
-metadata flag); a non-empty collection renders to exactly two elements,
the -metadata flag and the left fold that concatenates every rendered
atom in insertion order with no separator and no deduplication. -/
theorem c7_atomsArgs_rendering (l : List Atom) :
    (atomsArgs l = [] ↔ l = []) ∧
    (l ≠ [] → atomsArgs l
        = ["-metadata", l.foldl (fun acc a => acc ++ a.arg) ""]) := by
  constructor
  · cases l <;> simp [atomsArgs]
  · intro h
    cases l with
    | nil => exact absurd rfl h
    | cons a as =>
      simp only [atomsArgs, List.length_cons, Nat.zero_lt_succ, if_pos]
      rw [show String.join ((a :: as).map Atom.arg)
            = ((a :: as).map Atom.arg).foldl (fun acc s => acc ++ s) "" from rfl]
      rw [List.foldl_map]

/-- Witness for C7 at a concrete input: a single Cast atom. -/
theorem c7_atomsArgs_rendering_witness :
    ([{ tag := "Cast", value := "John Doe" }] : List Atom) ≠ [] ∧
    atomsArgs [{ tag := "Cast", value := "John Doe" }]
      = ["-metadata",
         ([{ tag := "Cast", value := "John Doe" }] : List Atom).foldl
           (fun acc a => acc ++ a.arg) ""] :=
  ⟨by decide, (c7_atomsArgs_rendering [{ tag := "Cast", value := "John Doe" }]).2 (by decide)⟩

/-- C8: a successful `buildTagCommand` emits the source and the resolved
destination escaped by `escapeShell`, which replaces each whitespace
character, ampersand, and single quote with a backslash followed by that
character, in place, and leaves every other character unchanged; in
particular the destination dest & path is emitted as dest\ \&\ path. -/
theorem c8_path_escaping (envPath : Option String) (fs : FS) (st : SublerStruct)
    (d : String) (cmd : SublerCommand) (post : List Atom)
    (hdd : determineDest fs st = some d)
    (hb : buildTagCommand envPath fs st = (Except.ok cmd, post)) :
    cmd.args.take 4 = ["-source", escapeShell st.source, "-dest", escapeShell d] ∧
    (∀ s : String, (escapeShell s).data
        = List.flatten (s.data.map fun c => if isEscChar c then ['\\', c] else [c])) ∧
    escapeShell "dest & path" = "dest\\ \\&\\ path" := by
  refine ⟨?_, ?_, rfl⟩
  · by_cases hs : existsSync fs st.source = false
    · unfold buildTagCommand at hb
      rw [if_pos hs] at hb
      exact absurd (congrArg Prod.fst hb) (by simp)
    · unfold buildTagCommand at hb
      rw [if_neg hs, hdd] at hb
      rw [Prod.mk.injEq] at hb
      obtain ⟨h1, h2⟩ := hb
      rw [Except.ok.injEq] at h1
      subst h1
      simp [List.take]
  · intro s
    rw [escapeShell]
    rw [show (String.mk (s.data.flatMap fun c => if isEscChar c then ['\\', c] else [c])).data
          = s.data.flatMap fun c => if isEscChar c then ['\\', c] else [c] from rfl]
    rw [List.flatMap_def]

/-- Witness for C8 at a concrete input: the builder with explicit
destination dest & path, which is free on a filesystem holding only the
source in.mp4. -/
theorem c8_path_escaping_witness :
    cmdAmpersand.args.take 4
        = ["-source", escapeShell "in.mp4", "-dest", escapeShell "dest & path"] ∧
    escapeShell "dest & path" = "dest\\ \\&\\ path" :=
  ⟨(c8_path_escaping none fsInOnly stAmpersand "dest & path" cmdAmpersand
      postMovieAtoms rfl rfl).1,
   (c8_path_escaping none fsInOnly stAmpersand "dest & path" cmdAmpersand
      postMovieAtoms rfl rfl).2.2⟩

/-- C9 counterexample: the claim states the returned executable is the
environment-variable override whenever the variable is set. With the
variable set to the empty string the build succeeds but returns the fixed
default path, not the empty override: the JavaScript or-operator treats
the empty string as falsy. -/
theorem c9_empty_override_counterexample :
    ((buildTagCommand (some "") fsOneFile stDefault).1.map SublerCommand.command)
      = Except.ok "/usr/local/bin/SublerCli" ∧
    ("/usr/local/bin/SublerCli" : String) ≠ "" :=
  ⟨rfl, by decide⟩

/-- C9 (amended): every accepted build returns the argument list in the
fixed order -source, escaped source, -dest, escaped destination, the
rendered metadata flag of the (post-append) collection when non-empty,
then exactly the switches of the enabled flags, drawn in order from the
fixed table chapterspreview, optimize, organizegroups, 64bitchunk; the
returned executable is the environment override when it is set to a
non-empty string, and the fixed default path when the variable is unset
or set to the empty string. -/
theorem c9_argument_order (envPath : Option String) (fs : FS) (st : SublerStruct)
    (d : String) (cmd : SublerCommand) (post : List Atom)
    (hdd : determineDest fs st = some d)
    (hb : buildTagCommand envPath fs st = (Except.ok cmd, post)) :
    cmd.args
        = ["-source", escapeShell st.source, "-dest", escapeShell d]
          ++ atomsArgs post
          ++ (([ (st.chaptersPreview, "-chapterspreview")
               , (st.optimize, "-optimize")
               , (st.organizeGroups, "-organizegroups")
               , (st.bitChunk64, "-64bitchunk") ].filter fun pr => pr.1).map
                fun pr => pr.2) ∧
    (envPath = none → cmd.command = "/usr/local/bin/SublerCli") ∧
    (envPath = some "" → cmd.command = "/usr/local/bin/SublerCli") ∧
    (∀ s : String, envPath = some s → ¬ s = "" → cmd.command = s) := by
  by_cases hs : existsSync fs st.source = false
  · unfold buildTagCommand at hb
    rw [if_pos hs] at hb
    exact absurd (congrArg Prod.fst hb) (by simp)
  · unfold buildTagCommand at hb
    rw [if_neg hs, hdd] at hb
    rw [Prod.mk.injEq] at hb
    obtain ⟨h1, h2⟩ := hb
    rw [Except.ok.injEq] at h1
    subst h1
    refine ⟨?_, ?_, ?_, ?_⟩
    · rw [h2]
      cases st.chaptersPreview <;> cases st.optimize <;>
        cases st.organizeGroups <;> cases st.bitChunk64 <;>
        simp [List.filter]
    · intro he
      subst he
      rfl
    · intro he
      subst he
      rfl
    · intro s he hne
      subst he
      simp only [sublerExecutable]
      rw [if_neg (by simpa [String.isEmpty_iff] using hne)]

/-- Witness for C9 at a concrete input: explicit free destination
out.mp4, environment override /opt/subler. -/
theorem c9_argument_order_witness :
    cmdExplicitDest.args
        = ["-source", escapeShell "a.mp4", "-dest", escapeShell "out.mp4"]
          ++ atomsArgs postMovieAtoms
          ++ ((([ (true, "-chapterspreview"), (true, "-optimize")
                , (true, "-organizegroups"), (true, "-64bitchunk") ]
                  : List (Bool × String)).filter fun pr => pr.1).map fun pr => pr.2) ∧
    cmdExplicitDest.command = "/opt/subler" :=
  ⟨(c9_argument_order (some "/opt/subler") fsOneFile stExplicitDest "out.mp4"
      cmdExplicitDest postMovieAtoms rfl rfl).1,
   (c9_argument_order (some "/opt/subler") fsOneFile stExplicitDest "out.mp4"
      cmdExplicitDest postMovieAtoms rfl rfl).2.2.2 "/opt/subler" rfl (by decide)⟩

end NodeSubler
